import Mathlib

/-!
Shallow embedding of `scripts/qemucommand.py` (meta-updater).

Modelling conventions:
* The filesystem is a list of existing file paths (`Env.fs`); `os.path.exists`
  is membership.  Directories are a finite association list `Env.dirs` mapping
  a directory path to its entries (`os.path.isdir` is key-presence,
  `os.listdir` the value).
* `os.path.abspath` and `os.path.realpath` are modelled as the identity:
  paths are taken to be given in canonical absolute form and there are no
  symbolic links.  `os.path.join` keeps POSIX semantics for the cases that
  arise (right operand absolute wins; otherwise a `/` separator is inserted
  unless the left part is empty or already ends in `/`).
* Python `argparse` option records become the `Args` structure; optional /
  possibly-absent attributes become `Option String`.  Python truthiness of an
  optional string (`None` and `""` are falsy) is `truthyO`.
* `random.choice` over the hex-digit alphabet is modelled by a deterministic
  stream of pre-drawn numbers (`Rng := List Nat`), consumed one per digit.
* Binding a TCP port is modelled by a static availability predicate
  `Env.portFree`; each probe releases its bind immediately, so one predicate
  describes the whole probing window.
* Exceptions become `Except InitError`; the constructors mirror the raise
  sites of the source.  `InitError.typeError` models the `TypeError` that
  `os.path.exists(None)` raises when the overlay option is absent.
* The module-level mutable dict `EXTENSIONS` is process state: it enters
  construction through `Env.extensions` and the (possibly mutated) table is
  returned in `InitOut.extensions`.
-/

/-- Python truthiness of an optional string: `None` and `""` are falsy. -/
def truthyO : Option String → Bool
  | none => false
  | some s => !s.isEmpty

/-- `str.lower()`, character-wise (ASCII case folding, which is all the
source ever compares). -/
def strLower (s : String) : String :=
  ⟨s.data.map Char.toLower⟩

/-- Does the first character list begin with the second? -/
def charsBeginWith : List Char → List Char → Bool
  | _, [] => true
  | [], _ => false
  | a :: s, b :: p => if a = b then charsBeginWith s p else false

/-- `str.startswith`, over the character lists. -/
def strStartsWith (s pat : String) : Bool :=
  charsBeginWith s.data pat.data

/-- `str.endswith`, over the reversed character lists. -/
def strEndsWith (s pat : String) : Bool :=
  charsBeginWith s.data.reverse pat.data.reverse

/-- `os.path.exists` over the modelled filesystem. -/
def pexists (fs : List String) (p : String) : Bool :=
  decide (p ∈ fs)

/-- `os.path.join` for two components (POSIX semantics). -/
def pjoin (a b : String) : String :=
  if strStartsWith b "/" then b
  else if a = "" || strEndsWith a "/" then a ++ b
  else a ++ "/" ++ b

/-- `os.path.join(a, b, c)`. -/
def pjoin3 (a b c : String) : String :=
  pjoin (pjoin a b) c

/-- `os.path.abspath`, modelled as the identity (inputs are canonical). -/
def abspath (p : String) : String := p

/-- `os.path.realpath`, modelled as the identity (no symlinks). -/
def realpath (p : String) : String := p

/-- Lookup with default: Python `dict.get(k, d)` over an association list. -/
def lookupD (l : List (String × String)) (k d : String) : String :=
  match l.find? (fun p => p.1 == k) with
  | some p => p.2
  | none => d

/-- Python `dict[k] = v`: replace the value of the (unique) key in place,
preserving insertion order, or append the new entry at the end. -/
def setExt : List (String × String) → String → String → List (String × String)
  | [], k, v => [(k, v)]
  | p :: l, k, v => if p.1 == k then (k, v) :: l else p :: setExt l k v

/-- The module-level `EXTENSIONS` dict in its initial (import-time) state. -/
def EXTENSIONS : List (String × String) :=
  [("intel-corei7-64", "wic"), ("qemux86-64", "ota-ext4")]

/-- One probe step of `find_local_port`: try `fuel` consecutive ports from `p`. -/
def findPortAux (free : Nat → Bool) : Nat → Nat → Option Nat
  | _, 0 => none
  | p, Nat.succ n => if free p then some p else findPortAux free (p + 1) n

/-- `find_local_port(start_port)`: probe up to 10 consecutive ports, return the
first that binds; `none` models the `Exception` raised after 10 failures. -/
def find_local_port (free : Nat → Bool) (start_port : Nat) : Option Nat :=
  findPortAux free start_port 10

/-- The pre-drawn stream of random numbers backing `random.choice`. -/
abbrev Rng := List Nat

/-- Draw one number from the stream (reduced mod 16, the alphabet size). -/
def rngNext : Rng → Nat × Rng
  | [] => (0, [])
  | d :: r => (d % 16, r)

/-- The hex-digit alphabet `'0123456789abcdef'` of `random_mac`. -/
def hexChar (n : Nat) : Char :=
  "0123456789abcdef".toList.getD n '0'

/-- `random.choice(hex_digits)` as one draw from the stream. -/
def randHex (g : Rng) : String × Rng :=
  let (n, g1) := rngNext g
  (String.singleton (hexChar n), g1)

/-- `random_mac()`: `ca:fe:` followed by four colon-separated pairs of
independently drawn hex digits. -/
def random_mac (g : Rng) : String × Rng :=
  let (d1, g1) := randHex g
  let (d2, g2) := randHex g1
  let (d3, g3) := randHex g2
  let (d4, g4) := randHex g3
  let (d5, g5) := randHex g4
  let (d6, g6) := randHex g5
  let (d7, g7) := randHex g6
  let (d8, g8) := randHex g7
  ("ca:fe:" ++ d1 ++ d2 ++ ":" ++ d3 ++ d4 ++ ":" ++ d5 ++ d6 ++ ":" ++ d7 ++ d8, g8)

/-- The parsed option record handed to `QemuCommand.__init__` (`args`). -/
structure Args where
  dry_run : Bool
  overlay : Option String
  uboot_enable : Option String
  machine : Option String
  dir : String
  bootloader : Option String
  efi : Bool
  imagename : String
  mac : Option String
  mem : Option String
  kvm : Option Bool
  no_gui : Bool
  gdb : Bool
  pcap : Option String
  secondary_network : Bool
  host_forward : Option String
deriving Repr

/-- Ambient process/OS state consumed by construction. -/
structure Env where
  fs : List String
  dirs : List (String × List String)
  extensions : List (String × String)
  portFree : Nat → Bool
  kvmOk : Bool
  rng : Rng

/-- The raise sites of `qemucommand.py`.  Spec taxonomy: `overlayWithoutUBoot`,
`dirNotExist` and `ambiguousMachine` are ConfigurationError;
`ubootImageMissing` and `osImageMissing` are MissingArtifactError;
`noFreePort` is ResourceExhaustionError; `typeError` is the `TypeError` from
`os.path.exists(None)`. -/
inductive InitError where
  | overlayWithoutUBoot
  | dirNotExist (d : String)
  | ambiguousMachine (d : String)
  | ubootImageMissing (p : String)
  | osImageMissing (p : String)
  | noFreePort (start : Nat)
  | typeError
deriving DecidableEq, Repr

/-- The fields that `__init__` stores on `self` (`ResolvedLaunchConfig`). -/
structure QemuConfig where
  enable_u_boot : Bool
  dry_run : Bool
  overlay : Option String
  host_fwd : Option String
  kernel : Option String
  bios : Option String
  drive_interface : String
  machine : String
  image : String
  mac_address : String
  serial_port : Nat
  ssh_port : Nat
  mem : String
  kvm : Bool
  gui : Bool
  gdb : Bool
  pcap : Option String
  secondary_network : Bool
deriving DecidableEq, Repr, Inhabited

/-- Result of a successful construction: the config plus the side effects
(performed copies, resulting filesystem, mutated extension table, remaining
random stream). -/
structure InitOut where
  config : QemuConfig
  copies : List (String × String)
  fs : List String
  extensions : List (String × String)
  rng : Rng
deriving DecidableEq, Repr, Inhabited

/-- Lines 49-50: U-Boot is enabled by default; an explicit `uboot_enable`
string enables it only when its lowercase form is `yes`, `true` or `1`. -/
def computeEnableUBoot : Option String → Bool
  | none => true
  | some s => strLower s == "yes" || strLower s == "true" || strLower s == "1"

/-- Lines 61-74: explicit machine if truthy, else autodetect from the images
directory (must exist and contain exactly one entry). -/
def resolveMachine (args : Args) (dirs : List (String × List String)) :
    Except InitError String :=
  if truthyO args.machine then .ok (args.machine.getD "")
  else
    match dirs.find? (fun p => p.1 == args.dir) with
    | none => .error (InitError.dirNotExist args.dir)
    | some p =>
      if p.2.length == 1 then .ok (p.2.headD "")
      else .error (InitError.ambiguousMachine args.dir)

/-- Lines 81-84: explicit bootloader override if truthy, else the conventional
ROM path under `<dir>/<machine>/`. -/
def resolveUbootPath (args : Args) (machine : String) : String :=
  if truthyO args.bootloader then args.bootloader.getD ""
  else abspath (pjoin3 args.dir machine "u-boot-qemux86-64.rom")

/-- Lines 96-99: `if not exists(uboot_path) and (not dry_run or
exists(overlay)): raise`.  Short-circuit evaluation means `exists(overlay)` is
reached only when the path is missing and dry-run is set; `exists(None)`
raises `TypeError`. -/
def ubootExistsCheck (fs : List String) (dry_run : Bool) (overlay : Option String)
    (up : String) : Except InitError Unit :=
  if pexists fs up then .ok ()
  else if !dry_run then .error (InitError.ubootImageMissing up)
  else
    match overlay with
    | none => .error InitError.typeError
    | some s => if pexists fs s then .error (InitError.ubootImageMissing up) else .ok ()

/-- Line 126: the same check shape for the final OS-image existence test. -/
def osImageCheck (fs : List String) (dry_run : Bool) (overlay : Option String)
    (img : String) : Except InitError Unit :=
  if pexists fs img then .ok ()
  else if !dry_run then .error (InitError.osImageMissing img)
  else
    match overlay with
    | none => .error InitError.typeError
    | some s => if pexists fs s then .error (InitError.osImageMissing img) else .ok ()

/-- Result of the boot-image resolution block (lines 78-102): the `self.bios`
and `self.kernel` fields, the copies performed and the filesystem after. -/
structure BootRes where
  bios : Option String
  kernel : Option String
  copies : List (String × String)
  fs : List String

/-- The shared shape of the two overlay-sidecar blocks (lines 87-94 and
115-122): if the overlay file does not yet exist, require the source artifact
(else raise `missing src`), and copy it to the sidecar unless the sidecar is
already there; in dry-run the copy is only printed.  Returns the sidecar path,
the copies performed and the resulting filesystem. -/
def sidecarCopy (args : Args) (fs : List String) (src dst : String)
    (missing : String → InitError) :
    Except InitError (String × List (String × String) × List String) :=
  if !pexists fs (args.overlay.getD "") then
    if !pexists fs src then .error (missing src)
    else if !pexists fs dst then
      if args.dry_run then .ok (dst, [], fs)
      else .ok (dst, [(src, dst)], fs ++ [dst])
    else .ok (dst, [], fs)
  else .ok (dst, [], fs)

/-- Lines 85-95: the overlay ROM-sidecar block.  When a (truthy) overlay is
given, redirect the effective U-Boot path to `<overlay>.u-boot.rom` with the
copy bookkeeping of `sidecarCopy`. -/
def overlayRomStep (args : Args) (fs : List String) (up0 : String) :
    Except InitError (String × List (String × String) × List String) :=
  if truthyO args.overlay then
    sidecarCopy args fs up0 (args.overlay.getD "" ++ ".u-boot.rom")
      InitError.ubootImageMissing
  else .ok (up0, [], fs)

/-- Lines 78-102: EFI firmware literal, or U-Boot ROM (with overlay sidecar
copy bookkeeping and existence check), or the conventional kernel path. -/
def resolveBoot (args : Args) (fs : List String) (enable_u_boot : Bool)
    (machine : String) : Except InitError BootRes :=
  if args.efi then .ok ⟨some "OVMF.fd", none, [], fs⟩
  else if enable_u_boot then
    match overlayRomStep args fs (resolveUbootPath args machine) with
    | .error e => .error e
    | .ok (up, cps, fs1) =>
      match ubootExistsCheck fs1 args.dry_run args.overlay up with
      | .error e => .error e
      | .ok _ => .ok ⟨some up, none, cps, fs1⟩
  else
    .ok ⟨none, some (abspath (pjoin3 args.dir machine "bzImage-qemux86-64.bin")), [], fs⟩

/-- Result of the disk-image resolution block (lines 108-127). -/
structure ImgRes where
  image : String
  copies : List (String × String)
  fs : List String

/-- Lines 113-125: the overlay image-sidecar block, same shape as the ROM one
but for `<overlay>.img`; without an overlay the effective image is the
`realpath` of the base image. -/
def overlayImgStep (args : Args) (fs : List String) (image0 : String) :
    Except InitError (String × List (String × String) × List String) :=
  if truthyO args.overlay then
    sidecarCopy args fs image0 (args.overlay.getD "" ++ ".img")
      InitError.osImageMissing
  else .ok (realpath image0, [], fs)

/-- Lines 108-127: base image path (verbatim if the image-name exists, else
synthesized from the extension table), overlay sidecar copy bookkeeping, and
the final existence check. -/
def resolveImage (args : Args) (exts : List (String × String)) (fs : List String)
    (machine : String) : Except InitError ImgRes :=
  let image0 :=
    if pexists fs args.imagename then realpath args.imagename
    else
      let ext := lookupD exts machine "wic"
      pjoin3 args.dir machine (args.imagename ++ "-" ++ machine ++ "." ++ ext)
  match overlayImgStep args fs image0 with
  | .error e => .error e
  | .ok (image, cps, fs2) =>
    match osImageCheck fs2 args.dry_run args.overlay image with
    | .error e => .error e
    | .ok _ => .ok ⟨image, cps, fs2⟩

/-- Lines 57-59: disabling U-Boot mutates the shared `EXTENSIONS` dict. -/
def extsOf (args : Args) (env : Env) : List (String × String) :=
  if computeEnableUBoot args.uboot_enable then env.extensions
  else setExt env.extensions "qemux86-64" "ext4"

/-- Line 129: explicit MAC override if truthy, else a fresh random MAC. -/
def macOf (args : Args) (env : Env) : String × Rng :=
  if truthyO args.mac then (args.mac.getD "", env.rng) else random_mac env.rng

/-- Line 132: memory size, defaulting to `"1G"`. -/
def memOf (args : Args) : String :=
  if truthyO args.mem then args.mem.getD "" else "1G"

/-- Lines 133-141: explicit KVM override, else the `kvm-ok` probe outcome. -/
def kvmOf (args : Args) (env : Env) : Bool :=
  match args.kvm with
  | none => env.kvmOk
  | some b => b

/-- `QemuCommand.__init__` (lines 41-149). -/
def qemuInit (args : Args) (env : Env) : Except InitError InitOut :=
  let enable_u_boot := computeEnableUBoot args.uboot_enable
  if !enable_u_boot && truthyO args.overlay then
    .error InitError.overlayWithoutUBoot
  else
    match resolveMachine args env.dirs with
    | .error e => .error e
    | .ok machine =>
      match resolveBoot args env.fs enable_u_boot machine with
      | .error e => .error e
      | .ok bootRes =>
        match resolveImage args (extsOf args env) bootRes.fs machine with
        | .error e => .error e
        | .ok imgRes =>
          let macRes := macOf args env
          match find_local_port env.portFree 8990 with
          | none => .error (InitError.noFreePort 8990)
          | some serial_port =>
            match find_local_port env.portFree 2222 with
            | none => .error (InitError.noFreePort 2222)
            | some ssh_port =>
              .ok {
                config := {
                  enable_u_boot := enable_u_boot
                  dry_run := args.dry_run
                  overlay := args.overlay
                  host_fwd := args.host_forward
                  kernel := bootRes.kernel
                  bios := bootRes.bios
                  drive_interface := if enable_u_boot then "ide" else "virtio"
                  machine := machine
                  image := imgRes.image
                  mac_address := macRes.1
                  serial_port := serial_port
                  ssh_port := ssh_port
                  mem := memOf args
                  kvm := kvmOf args env
                  gui := !args.no_gui
                  gdb := args.gdb
                  pcap := args.pcap
                  secondary_network := args.secondary_network }
                copies := bootRes.copies ++ imgRes.copies
                fs := imgRes.fs
                extensions := extsOf args env
                rng := macRes.2 }

/-- `QemuCommand.command_line` (lines 151-213).  Tokens are `Option String`:
`none` models a Python `None` placed into the list (the unset `self.kernel`).
The random stream is threaded because the secondary-network device draws a
fresh MAC on every call. -/
def command_line (c : QemuConfig) (g : Rng) : List (Option String) × Rng :=
  let netuser0 := "user,hostfwd=tcp:0.0.0.0:" ++ toString c.ssh_port ++ "-:22,restrict=off"
  let netuser1 := if c.gdb then netuser0 ++ ",hostfwd=tcp:0.0.0.0:2159-:2159" else netuser0
  let netuser := if truthyO c.host_fwd then netuser1 ++ ",hostfwd=" ++ c.host_fwd.getD ""
    else netuser1
  let boot : List (Option String) :=
    if c.enable_u_boot then [some "-bios", c.bios] else [some "-kernel", c.kernel]
  let drive : List (Option String) :=
    if truthyO c.overlay then []
    else [some "-drive",
      some ("file=" ++ c.image ++ ",if=" ++ c.drive_interface ++ ",format=raw,snapshot=on")]
  let fixed : List (Option String) :=
    [some "-serial", some ("tcp:127.0.0.1:" ++ toString c.serial_port ++ ",server,nowait"),
     some "-m", some c.mem,
     some "-object", some "rng-random,id=rng0,filename=/dev/urandom",
     some "-device", some "virtio-rng-pci,rng=rng0",
     some "-net", some netuser,
     some "-net", some ("nic,macaddr=" ++ c.mac_address)]
  let pcapSeg : List (Option String) :=
    if truthyO c.pcap then [some "-net", some ("dump,file=" ++ c.pcap.getD "")] else []
  let secSeg : List (Option String) :=
    if c.secondary_network then
      [some "-netdev", some "socket,id=vlan1,mcast=230.0.0.1:1234,localaddr=127.0.0.1",
       some "-device", some ("e1000,netdev=vlan1,mac=" ++ (random_mac g).1)]
    else []
  let g1 := if c.secondary_network then (random_mac g).2 else g
  let guiSeg : List (Option String) :=
    if c.gui then
      [some "-usb", some "-device", some "usb-tablet", some "-show-cursor",
       some "-vga", some "std"]
    else [some "-nographic", some "-monitor", some "null"]
  let kvmSeg : List (Option String) :=
    if c.kvm then [some "-enable-kvm", some "-cpu", some "host"]
    else [some "-cpu", some "Haswell"]
  let ovSeg : List (Option String) := if truthyO c.overlay then [c.overlay] else []
  let appSeg : List (Option String) :=
    if c.enable_u_boot then []
    else [some "-append", some "root=/dev/vda rw highres=off console=ttyS0 ip=dhcp"]
  ([some "qemu-system-x86_64"] ++ boot ++ drive ++ fixed ++ pcapSeg ++ secSeg
     ++ guiSeg ++ kvmSeg ++ ovSeg ++ appSeg, g1)

/-- `QemuCommand.img_command_line` (lines 215-224). -/
def img_command_line (c : QemuConfig) : List (Option String) :=
  [some "qemu-img", some "create", some "-o",
   some ("backing_file=" ++ c.image), some "-f", some "qcow2", c.overlay]

/-! ### Helper lemmas -/

theorem pexists_append (fs : List String) (a x : String) :
    pexists (fs ++ [a]) x = (pexists fs x || decide (x = a)) := by
  by_cases h : x = a <;> by_cases h2 : x ∈ fs <;> simp [pexists, h, h2]

theorem lookupD_setExt_self (l : List (String × String)) (k v d : String) :
    lookupD (setExt l k v) k d = v := by
  induction l with
  | nil => simp [setExt, lookupD, List.find?]
  | cons p l ih =>
    unfold setExt
    by_cases h : (p.1 == k) = true
    · rw [if_pos h]
      simp [lookupD, List.find?]
    · rw [if_neg h]
      have hb : (p.1 == k) = false := by simpa using h
      simp only [lookupD, List.find?, hb] at ih ⊢
      exact ih

/-- Adjacency of two tokens in a token list: `a` immediately followed by `b`. -/
def adj (a b : Option String) (l : List (Option String)) : Prop :=
  ∃ p s, l = p ++ a :: b :: s

theorem adj_here (a b : Option String) (s : List (Option String)) :
    adj a b (a :: b :: s) :=
  ⟨[], s, rfl⟩

theorem adj_cons (x : Option String) {a b : Option String} {l : List (Option String)}
    (h : adj a b l) : adj a b (x :: l) := by
  obtain ⟨p, s, rfl⟩ := h
  exact ⟨x :: p, s, rfl⟩

theorem adj_append_left (xs : List (Option String)) {a b : Option String}
    {l : List (Option String)} (h : adj a b l) : adj a b (xs ++ l) := by
  obtain ⟨p, s, rfl⟩ := h
  exact ⟨xs ++ p, s, by simp⟩

theorem findPortAux_none (free : Nat → Bool) (p n : Nat)
    (h : ∀ i, i < n → free (p + i) = false) : findPortAux free p n = none := by
  induction n generalizing p with
  | zero => rfl
  | succ n ih =>
    have h0 : free p = false := by simpa using h 0 (Nat.succ_pos n)
    simp only [findPortAux, h0, Bool.false_eq_true, if_false]
    exact ih (p + 1) fun i hi => by
      simpa [show p + 1 + i = p + (i + 1) by omega] using h (i + 1) (by omega)

theorem findPortAux_first (free : Nat → Bool) (n : Nat) :
    ∀ p k, k < n → (∀ i, i < k → free (p + i) = false) → free (p + k) = true →
      findPortAux free p n = some (p + k) := by
  induction n with
  | zero => intro p k hk; omega
  | succ n ih =>
    intro p k hk hbelow hfree
    cases k with
    | zero =>
      simp only [Nat.add_zero] at hfree
      simp [findPortAux, hfree]
    | succ k =>
      have h0 : free p = false := by simpa using hbelow 0 (Nat.succ_pos k)
      simp only [findPortAux, h0, Bool.false_eq_true, if_false]
      have := ih (p + 1) k (by omega)
        (fun i hi => by
          simpa [show p + 1 + i = p + (i + 1) by omega] using hbelow (i + 1) (by omega))
        (by simpa [show p + 1 + k = p + (k + 1) by omega] using hfree)
      simpa [show p + 1 + k = p + (k + 1) by omega] using this

/-- The config record a successful construction stores, in terms of the
intermediate resolution results. -/
def mkConfig (args : Args) (env : Env) (machine : String) (bootRes : BootRes)
    (imgRes : ImgRes) (sp1 sp2 : Nat) : QemuConfig :=
  { enable_u_boot := computeEnableUBoot args.uboot_enable
    dry_run := args.dry_run
    overlay := args.overlay
    host_fwd := args.host_forward
    kernel := bootRes.kernel
    bios := bootRes.bios
    drive_interface := if computeEnableUBoot args.uboot_enable then "ide" else "virtio"
    machine := machine
    image := imgRes.image
    mac_address := (macOf args env).1
    serial_port := sp1
    ssh_port := sp2
    mem := memOf args
    kvm := kvmOf args env
    gui := !args.no_gui
    gdb := args.gdb
    pcap := args.pcap
    secondary_network := args.secondary_network }

/-- Inversion of a successful construction into its resolution steps. -/
theorem qemuInit_ok_inv {args : Args} {env : Env} {out : InitOut}
    (h : qemuInit args env = .ok out) :
    (!computeEnableUBoot args.uboot_enable && truthyO args.overlay) = false ∧
    ∃ machine bootRes imgRes sp1 sp2,
      resolveMachine args env.dirs = .ok machine ∧
      resolveBoot args env.fs (computeEnableUBoot args.uboot_enable) machine = .ok bootRes ∧
      resolveImage args (extsOf args env) bootRes.fs machine = .ok imgRes ∧
      find_local_port env.portFree 8990 = some sp1 ∧
      find_local_port env.portFree 2222 = some sp2 ∧
      out = { config := mkConfig args env machine bootRes imgRes sp1 sp2
              copies := bootRes.copies ++ imgRes.copies
              fs := imgRes.fs
              extensions := extsOf args env
              rng := (macOf args env).2 } := by
  unfold qemuInit at h
  by_cases hc : (!computeEnableUBoot args.uboot_enable && truthyO args.overlay) = true
  · rw [if_pos hc] at h
    cases h
  · rw [if_neg hc] at h
    refine ⟨by simpa using hc, ?_⟩
    cases hM : resolveMachine args env.dirs with
    | error e => simp only [hM] at h; cases h
    | ok machine =>
      simp only [hM] at h
      cases hB : resolveBoot args env.fs (computeEnableUBoot args.uboot_enable) machine with
      | error e => simp only [hB] at h; cases h
      | ok bootRes =>
        simp only [hB] at h
        cases hI : resolveImage args (extsOf args env) bootRes.fs machine with
        | error e => simp only [hI] at h; cases h
        | ok imgRes =>
          simp only [hI] at h
          cases hp1 : find_local_port env.portFree 8990 with
          | none => simp only [hp1] at h; cases h
          | some sp1 =>
            simp only [hp1] at h
            cases hp2 : find_local_port env.portFree 2222 with
            | none => simp only [hp2] at h; cases h
            | some sp2 =>
              simp only [hp2] at h
              refine ⟨machine, bootRes, imgRes, sp1, sp2, rfl, hB, hI, rfl, rfl, ?_⟩
              cases h
              rfl

/-- With no (truthy) overlay, the boot-resolution step never copies and leaves
the filesystem unchanged. -/
theorem resolveBoot_no_overlay {args : Args} {fs : List String} {eu : Bool}
    {machine : String} {br : BootRes}
    (hov : truthyO args.overlay = false)
    (h : resolveBoot args fs eu machine = .ok br) :
    br.copies = [] ∧ br.fs = fs := by
  unfold resolveBoot at h
  by_cases hefi : args.efi = true
  · rw [if_pos hefi] at h
    cases h
    exact ⟨rfl, rfl⟩
  · rw [if_neg hefi] at h
    by_cases heu : eu = true
    · rw [if_pos heu] at h
      simp only [overlayRomStep, hov, Bool.false_eq_true, if_false] at h
      cases hC : ubootExistsCheck fs args.dry_run args.overlay (resolveUbootPath args machine) with
      | error e => simp only [hC] at h; cases h
      | ok u =>
        simp only [hC] at h
        cases h
        exact ⟨rfl, rfl⟩
    · rw [if_neg heu] at h
      cases h
      exact ⟨rfl, rfl⟩

/-- EFI requested: the firmware literal is used and nothing else happens. -/
theorem resolveBoot_efi {args : Args} {fs : List String} {eu : Bool}
    {machine : String} (hefi : args.efi = true) :
    resolveBoot args fs eu machine = .ok ⟨some "OVMF.fd", none, [], fs⟩ := by
  unfold resolveBoot
  rw [if_pos hefi]

/-- Direct-kernel mode: the conventional kernel path is resolved. -/
theorem resolveBoot_kernel {args : Args} {fs : List String}
    {machine : String} (hefi : args.efi = false) :
    resolveBoot args fs false machine =
      .ok ⟨none, some (abspath (pjoin3 args.dir machine "bzImage-qemux86-64.bin")), [], fs⟩ := by
  unfold resolveBoot
  rw [if_neg (by simp [hefi]), if_neg (by simp)]

/-- With no (truthy) overlay and a non-existing image-name parameter, a
successful image-resolution step yields the synthesized path and performs no
copy. -/
theorem resolveImage_no_overlay {args : Args} {exts : List (String × String)}
    {fs : List String} {machine : String} {ir : ImgRes}
    (hov : truthyO args.overlay = false)
    (him : pexists fs args.imagename = false)
    (h : resolveImage args exts fs machine = .ok ir) :
    ir.image = pjoin3 args.dir machine
        (args.imagename ++ "-" ++ machine ++ "." ++ lookupD exts machine "wic") ∧
    ir.copies = [] ∧ ir.fs = fs := by
  unfold resolveImage at h
  simp only [overlayImgStep, him, hov, Bool.false_eq_true, if_false, realpath] at h
  cases hC : osImageCheck fs args.dry_run args.overlay
      (pjoin3 args.dir machine
        (args.imagename ++ "-" ++ machine ++ "." ++ lookupD exts machine "wic")) with
  | error e => simp only [hC] at h; cases h
  | ok u =>
    simp only [hC] at h
    cases h
    exact ⟨rfl, rfl, rfl⟩

/-! ### Concrete scenarios used by witnesses and counterexamples -/

/-- A conventional run: U-Boot enabled, explicit machine, both artifacts on
disk, secondary network requested, explicit MAC. -/
def exArgs : Args :=
  { dry_run := false, overlay := none, uboot_enable := none,
    machine := some "qemux86-64", dir := "/b", bootloader := none, efi := false,
    imagename := "core-image", mac := some "ca:fe:00:00:00:01", mem := some "1G",
    kvm := some false, no_gui := true, gdb := false, pcap := none,
    secondary_network := true, host_forward := none }

def exEnv : Env :=
  { fs := ["/b/qemux86-64/u-boot-qemux86-64.rom",
           "/b/qemux86-64/core-image-qemux86-64.ota-ext4"],
    dirs := [], extensions := EXTENSIONS, portFree := fun _ => true,
    kvmOk := false, rng := [] }

/-- The construction result of the conventional run. -/
def exOut : InitOut :=
  match qemuInit exArgs exEnv with
  | .ok o => o
  | .error _ => default

/-! ### Claim theorems -/

/-- C1: whenever a (truthy) overlay path is given and U-Boot is explicitly
disabled, construction raises the overlay-requires-U-Boot ConfigurationError
(the `EnvironmentError` of line 54) regardless of every other field, and no
configuration is produced. -/
theorem qemuInit_overlay_without_uboot (args : Args) (env : Env)
    (hu : computeEnableUBoot args.uboot_enable = false)
    (ho : truthyO args.overlay = true) :
    qemuInit args env = .error InitError.overlayWithoutUBoot := by
  unfold qemuInit
  rw [if_pos (by simp [hu, ho])]

def c1Args : Args :=
  { dry_run := false, overlay := some "foo.img", uboot_enable := some "no",
    machine := some "qemux86-64", dir := "/b", bootloader := none, efi := false,
    imagename := "core-image", mac := none, mem := none, kvm := none,
    no_gui := false, gdb := true, pcap := some "x.pcap",
    secondary_network := false, host_forward := some "tcp:1:2" }

theorem qemuInit_overlay_without_uboot_witness :
    qemuInit c1Args exEnv = .error InitError.overlayWithoutUBoot :=
  qemuInit_overlay_without_uboot c1Args exEnv (by decide) (by decide)

/-- C8: probing from `p`, if all ten ports `p..p+9` are taken the finder
signals port exhaustion (`none`, the raised `Exception` of line 28); if the
`N`-th port of the window (`N ≤ 10`) is the first free one, it returns exactly
`p+N-1`. -/
theorem find_local_port_spec (free : Nat → Bool) (p : Nat) :
    ((∀ i, i < 10 → free (p + i) = false) → find_local_port free p = none) ∧
    (∀ N, 1 ≤ N → N ≤ 10 → (∀ i, i < N - 1 → free (p + i) = false) →
      free (p + (N - 1)) = true → find_local_port free p = some (p + (N - 1))) := by
  constructor
  · intro h
    exact findPortAux_none free p 10 h
  · intro N h1 h10 hbelow hfree
    exact findPortAux_first free 10 p (N - 1) (by omega) hbelow hfree

theorem find_local_port_spec_witness :
    find_local_port (fun n => decide (n = 8995)) 8990 = some (8990 + (6 - 1)) ∧
    find_local_port (fun _ => false) 2222 = none := by
  constructor
  · exact (find_local_port_spec (fun n => decide (n = 8995)) 8990).2 6 (by omega)
      (by omega) (by decide) (by decide)
  · exact (find_local_port_spec (fun _ => false) 2222).1 (fun i _ => rfl)

/-- C10: U-Boot counts as enabled exactly when the `uboot_enable` attribute is
absent or its lowercased value is `yes`, `true` or `1`; every other string
disables it.  The flag stored on the constructed configuration is exactly this
parse. -/
theorem uboot_enable_parsing :
    (∀ o, computeEnableUBoot o = true ↔
      (o = none ∨ ∃ s, o = some s ∧
        (strLower s = "yes" ∨ strLower s = "true" ∨ strLower s = "1"))) ∧
    (∀ args env out, qemuInit args env = .ok out →
      out.config.enable_u_boot = computeEnableUBoot args.uboot_enable) := by
  constructor
  · intro o
    cases o with
    | none => simp [computeEnableUBoot]
    | some s => simp [computeEnableUBoot, or_assoc]
  · intro args env out h
    obtain ⟨-, machine, br, ir, sp1, sp2, -, -, -, -, -, rfl⟩ := qemuInit_ok_inv h
    rfl

theorem uboot_enable_parsing_witness :
    exOut.config.enable_u_boot = computeEnableUBoot exArgs.uboot_enable ∧
    computeEnableUBoot (some "on") = false ∧ computeEnableUBoot (some "enabled") = false :=
  ⟨uboot_enable_parsing.2 exArgs exEnv exOut rfl, by decide, by decide⟩

/-- The extension the (possibly mutated) table yields for a machine, spelled
out per machine identifier. -/
theorem lookupD_extsOf (args : Args) (env : Env) (m : String)
    (hext : env.extensions = EXTENSIONS) :
    lookupD (extsOf args env) m "wic" =
      (if m = "intel-corei7-64" then "wic"
       else if m = "qemux86-64" then
         (if computeEnableUBoot args.uboot_enable then "ota-ext4" else "ext4")
       else "wic") := by
  unfold extsOf
  rw [hext]
  by_cases hu : computeEnableUBoot args.uboot_enable = true
  · rw [if_pos hu, if_pos hu]
    by_cases h1 : m = "intel-corei7-64"
    · subst h1
      simp [lookupD, EXTENSIONS, List.find?]
    · by_cases h2 : m = "qemux86-64"
      · subst h2
        simp [lookupD, EXTENSIONS, List.find?]
      · simp only [lookupD, EXTENSIONS, List.find?, if_neg h1, if_neg h2]
        have b1 : ("intel-corei7-64" == m) = false := by
          simp [Ne.symm h1]
        have b2 : ("qemux86-64" == m) = false := by
          simp [Ne.symm h2]
        simp [b1, b2]
  · have hu2 : computeEnableUBoot args.uboot_enable = false := by
      simpa using hu
    rw [if_neg hu, hu2]
    simp only [Bool.false_eq_true, if_false]
    have hset : setExt EXTENSIONS "qemux86-64" "ext4" =
        [("intel-corei7-64", "wic"), ("qemux86-64", "ext4")] := by decide
    rw [hset]
    by_cases h1 : m = "intel-corei7-64"
    · subst h1
      simp [lookupD, List.find?]
    · by_cases h2 : m = "qemux86-64"
      · subst h2
        simp [lookupD, List.find?]
      · have b1 : ("intel-corei7-64" == m) = false := by
          simp [Ne.symm h1]
        have b2 : ("qemux86-64" == m) = false := by
          simp [Ne.symm h2]
        simp [lookupD, List.find?, b1, b2, if_neg h1, if_neg h2]

/-- C2: on a fresh process (initial extension table), for every successful
construction with no overlay whose image-name parameter is not an existing
path, the resolved disk image path is
`<dir>/<machine>/<imagename>-<machine>.<ext>`, where `<ext>` is `wic` for
`intel-corei7-64`, `ota-ext4` for `qemux86-64` (flipped to `ext4` when U-Boot
is disabled), and the default `wic` for any machine not in the table. -/
theorem qemuInit_image_extension (args : Args) (env : Env) (out : InitOut)
    (hext : env.extensions = EXTENSIONS)
    (hov : truthyO args.overlay = false)
    (him : pexists env.fs args.imagename = false)
    (hok : qemuInit args env = .ok out) :
    out.config.image = pjoin3 args.dir out.config.machine
      (args.imagename ++ "-" ++ out.config.machine ++ "." ++
        (if out.config.machine = "intel-corei7-64" then "wic"
         else if out.config.machine = "qemux86-64" then
           (if computeEnableUBoot args.uboot_enable then "ota-ext4" else "ext4")
         else "wic")) := by
  obtain ⟨-, machine, br, ir, sp1, sp2, hM, hB, hI, -, -, rfl⟩ := qemuInit_ok_inv hok
  obtain ⟨-, hfs⟩ := resolveBoot_no_overlay hov hB
  rw [hfs] at hI
  obtain ⟨himg, -, -⟩ := resolveImage_no_overlay hov him hI
  show ir.image = _
  rw [himg, lookupD_extsOf args env machine hext]
  rfl

theorem qemuInit_image_extension_witness :
    exOut.config.image = pjoin3 exArgs.dir exOut.config.machine
      (exArgs.imagename ++ "-" ++ exOut.config.machine ++ "." ++
        (if exOut.config.machine = "intel-corei7-64" then "wic"
         else if exOut.config.machine = "qemux86-64" then
           (if computeEnableUBoot exArgs.uboot_enable then "ota-ext4" else "ext4")
         else "wic")) :=
  qemuInit_image_extension exArgs exEnv exOut rfl rfl rfl rfl

/-- The ambient process/OS state left behind by a construction: its
filesystem, its (possibly mutated) extension table and the remaining random
stream, with the rest of the environment unchanged. -/
def envAfter (env : Env) (out : InitOut) : Env :=
  { env with fs := out.fs, extensions := out.extensions, rng := out.rng }

/-- C7: a construction with U-Boot disabled rewrites the shared extension
table entry for `qemux86-64` to `ext4` (line 59), and the mutated table is
what later constructions in the same process consume: a subsequent successful
construction with U-Boot enabled that synthesizes an image path for machine
`qemux86-64` uses extension `ext4` instead of `ota-ext4`. -/
theorem qemuInit_extensions_leak (a1 a2 : Args) (env : Env) (out1 out2 : InitOut)
    (h1u : computeEnableUBoot a1.uboot_enable = false)
    (h1 : qemuInit a1 env = .ok out1)
    (h2u : computeEnableUBoot a2.uboot_enable = true)
    (h2 : qemuInit a2 (envAfter env out1) = .ok out2)
    (hm : out2.config.machine = "qemux86-64")
    (hov : truthyO a2.overlay = false)
    (him : pexists out1.fs a2.imagename = false) :
    out1.extensions = setExt env.extensions "qemux86-64" "ext4" ∧
    out2.config.image = pjoin3 a2.dir "qemux86-64"
      (a2.imagename ++ "-" ++ "qemux86-64" ++ "." ++ "ext4") := by
  have hx1 : out1.extensions = setExt env.extensions "qemux86-64" "ext4" := by
    obtain ⟨-, m, br, ir, sp1, sp2, -, -, -, -, -, rfl⟩ := qemuInit_ok_inv h1
    show extsOf a1 env = _
    unfold extsOf
    rw [h1u]
    simp
  refine ⟨hx1, ?_⟩
  obtain ⟨-, m2, br2, ir2, sp1, sp2, hM2, hB2, hI2, -, -, rfl⟩ := qemuInit_ok_inv h2
  obtain ⟨-, hfs2⟩ := resolveBoot_no_overlay hov hB2
  rw [hfs2] at hI2
  obtain ⟨himg, -, -⟩ := resolveImage_no_overlay hov him hI2
  have hx2 : extsOf a2 (envAfter env out1) =
      setExt env.extensions "qemux86-64" "ext4" := by
    unfold extsOf envAfter
    rw [h2u]
    simpa using hx1
  simp only [mkConfig] at hm ⊢
  subst hm
  rw [show ir2.image = _ from himg, hx2, lookupD_setExt_self]

def c7Args1 : Args :=
  { dry_run := false, overlay := none, uboot_enable := some "no",
    machine := some "qemux86-64", dir := "/b", bootloader := none, efi := false,
    imagename := "core-image", mac := some "ca:fe:00:00:00:02", mem := none,
    kvm := some false, no_gui := true, gdb := false, pcap := none,
    secondary_network := false, host_forward := none }

def c7Args2 : Args :=
  { c7Args1 with uboot_enable := none }

def c7Env : Env :=
  { fs := ["/b/qemux86-64/u-boot-qemux86-64.rom",
           "/b/qemux86-64/core-image-qemux86-64.ext4"],
    dirs := [], extensions := EXTENSIONS, portFree := fun _ => true,
    kvmOk := false, rng := [] }

def c7Out1 : InitOut :=
  match qemuInit c7Args1 c7Env with
  | .ok o => o
  | .error _ => default

def c7Out2 : InitOut :=
  match qemuInit c7Args2 (envAfter c7Env c7Out1) with
  | .ok o => o
  | .error _ => default

theorem qemuInit_extensions_leak_witness :
    c7Out1.extensions = setExt c7Env.extensions "qemux86-64" "ext4" ∧
    c7Out2.config.image = pjoin3 c7Args2.dir "qemux86-64"
      (c7Args2.imagename ++ "-" ++ "qemux86-64" ++ "." ++ "ext4") :=
  qemuInit_extensions_leak c7Args1 c7Args2 c7Env c7Out1 c7Out2 rfl rfl rfl rfl
    rfl rfl rfl

/-- In dry-run mode the sidecar block never copies and never changes the
filesystem. -/
theorem sidecarCopy_dry_run {args : Args} {fs : List String} {src dst : String}
    {missing : String → InitError}
    {r : String × List (String × String) × List String}
    (hd : args.dry_run = true)
    (h : sidecarCopy args fs src dst missing = .ok r) : r.2.1 = [] ∧ r.2.2 = fs := by
  unfold sidecarCopy at h
  rw [hd] at h
  repeat' split at h
  all_goals first
    | exact absurd rfl (by assumption)
    | (cases h; exact ⟨rfl, rfl⟩)
    | cases h

/-- In dry-run mode the ROM-sidecar block never copies and never changes the
filesystem. -/
theorem overlayRomStep_dry_run {args : Args} {fs : List String} {up0 : String}
    {r : String × List (String × String) × List String}
    (hd : args.dry_run = true)
    (h : overlayRomStep args fs up0 = .ok r) : r.2.1 = [] ∧ r.2.2 = fs := by
  unfold overlayRomStep at h
  split at h
  · exact sidecarCopy_dry_run hd h
  · cases h
    exact ⟨rfl, rfl⟩

/-- In dry-run mode the image-sidecar block never copies and never changes the
filesystem. -/
theorem overlayImgStep_dry_run {args : Args} {fs : List String} {image0 : String}
    {r : String × List (String × String) × List String}
    (hd : args.dry_run = true)
    (h : overlayImgStep args fs image0 = .ok r) : r.2.1 = [] ∧ r.2.2 = fs := by
  unfold overlayImgStep at h
  split at h
  · exact sidecarCopy_dry_run hd h
  · cases h
    exact ⟨rfl, rfl⟩

theorem resolveBoot_dry_run {args : Args} {fs : List String} {eu : Bool}
    {machine : String} {br : BootRes}
    (hd : args.dry_run = true)
    (h : resolveBoot args fs eu machine = .ok br) :
    br.copies = [] ∧ br.fs = fs := by
  unfold resolveBoot at h
  split at h
  · cases h
    exact ⟨rfl, rfl⟩
  · split at h
    · cases hs : overlayRomStep args fs (resolveUbootPath args machine) with
      | error e => simp only [hs] at h; cases h
      | ok r =>
        obtain ⟨up, cps, fs1⟩ := r
        obtain ⟨h1, h2⟩ := overlayRomStep_dry_run hd hs
        simp only [hs] at h
        cases hC : ubootExistsCheck fs1 args.dry_run args.overlay up with
        | error e => simp only [hC] at h; cases h
        | ok u =>
          simp only [hC] at h
          cases h
          exact ⟨h1, h2⟩
    · cases h
      exact ⟨rfl, rfl⟩

theorem resolveImage_dry_run {args : Args} {exts : List (String × String)}
    {fs : List String} {machine : String} {ir : ImgRes}
    (hd : args.dry_run = true)
    (h : resolveImage args exts fs machine = .ok ir) :
    ir.copies = [] ∧ ir.fs = fs := by
  unfold resolveImage at h
  cases hs : overlayImgStep args fs
      (if pexists fs args.imagename then realpath args.imagename
       else pjoin3 args.dir machine
         (args.imagename ++ "-" ++ machine ++ "." ++ lookupD exts machine "wic")) with
  | error e => simp only [hs] at h; cases h
  | ok r =>
    obtain ⟨image, cps, fs2⟩ := r
    obtain ⟨h1, h2⟩ := overlayImgStep_dry_run hd hs
    simp only [hs] at h
    cases hC : osImageCheck fs2 args.dry_run args.overlay image with
    | error e => simp only [hC] at h; cases h
    | ok u =>
      simp only [hC] at h
      cases h
      exact ⟨h1, h2⟩

def c4Args : Args :=
  { dry_run := true, overlay := some "foo.img", uboot_enable := none,
    machine := some "qemux86-64", dir := "/b", bootloader := none, efi := false,
    imagename := "core-image", mac := none, mem := none, kvm := some false,
    no_gui := true, gdb := false, pcap := none, secondary_network := false,
    host_forward := none }

def c4Env : Env :=
  { fs := [], dirs := [], extensions := EXTENSIONS, portFree := fun _ => true,
    kvmOk := false, rng := [] }

/-- C4 is refuted: a dry-run construction with an overlay requested and no
file on disk does not succeed silently — line 89 raises the missing-ROM
MissingArtifactError (`ValueError`) even though dry-run is set. -/
theorem qemuInit_dry_run_counterexample :
    c4Args.dry_run = true ∧ c4Env.fs = [] ∧
    qemuInit c4Args c4Env =
      .error (InitError.ubootImageMissing "/b/qemux86-64/u-boot-qemux86-64.rom") :=
  ⟨rfl, rfl, rfl⟩

/-- C4 (amended): a dry-run construction performs no file copy and leaves the
filesystem untouched (the would-be command is only printed); however, when an
overlay is requested whose file does not yet exist, a missing source ROM still
raises MissingArtifactError even in dry-run. -/
theorem qemuInit_dry_run_no_copies (args : Args) (env : Env)
    (hd : args.dry_run = true) :
    (∀ out, qemuInit args env = .ok out → out.copies = [] ∧ out.fs = env.fs) ∧
    (∀ m p, resolveMachine args env.dirs = .ok m → args.overlay = some p →
      truthyO args.overlay = true → pexists env.fs p = false →
      args.efi = false → computeEnableUBoot args.uboot_enable = true →
      pexists env.fs (resolveUbootPath args m) = false →
      qemuInit args env =
        .error (InitError.ubootImageMissing (resolveUbootPath args m))) := by
  constructor
  · intro out h
    obtain ⟨-, machine, br, ir, sp1, sp2, -, hB, hI, -, -, rfl⟩ := qemuInit_ok_inv h
    obtain ⟨hbc, hbf⟩ := resolveBoot_dry_run hd hB
    obtain ⟨hic, hif⟩ := resolveImage_dry_run hd hI
    constructor
    · show br.copies ++ ir.copies = []
      rw [hbc, hic]
      rfl
    · show ir.fs = env.fs
      rw [hif, hbf]
  · intro m p hM ho hp hpe hefi hu hrom
    have hB : resolveBoot args env.fs (computeEnableUBoot args.uboot_enable) m =
        .error (InitError.ubootImageMissing (resolveUbootPath args m)) := by
      unfold resolveBoot overlayRomStep sidecarCopy
      rw [if_neg (by simp [hefi]), if_pos (by rw [hu]), if_pos hp, ho]
      simp only [Option.getD_some, hpe, hrom, Bool.not_false, if_true]
    unfold qemuInit
    rw [if_neg (by simp [hu]), hM]
    simp only [hB]

def c4okArgs : Args :=
  { exArgs with dry_run := true, secondary_network := false }

def c4okOut : InitOut :=
  match qemuInit c4okArgs exEnv with
  | .ok o => o
  | .error _ => default

theorem qemuInit_dry_run_no_copies_witness :
    (c4okOut.copies = [] ∧ c4okOut.fs = exEnv.fs) ∧
    qemuInit c4Args c4Env =
      .error (InitError.ubootImageMissing "/b/qemux86-64/u-boot-qemux86-64.rom") :=
  ⟨(qemuInit_dry_run_no_copies c4okArgs exEnv rfl).1 c4okOut rfl,
   (qemuInit_dry_run_no_copies c4Args c4Env rfl).2 "qemux86-64" "foo.img"
     rfl rfl rfl rfl rfl rfl rfl⟩

/-- C9: for every successful construction with U-Boot disabled (and EFI not
requested), whatever the random stream, the launch command contains `-kernel`
immediately followed by the resolved kernel path, `-append` immediately
followed by exactly `root=/dev/vda rw highres=off console=ttyS0 ip=dhcp`, and
a `-drive` attachment whose clause uses interface `virtio`. -/
theorem command_line_direct_kernel (args : Args) (env : Env) (out : InitOut) (g : Rng)
    (hu : computeEnableUBoot args.uboot_enable = false)
    (hefi : args.efi = false)
    (hok : qemuInit args env = .ok out) :
    adj (some "-kernel")
      (some (abspath (pjoin3 args.dir out.config.machine "bzImage-qemux86-64.bin")))
      (command_line out.config g).1 ∧
    adj (some "-append")
      (some "root=/dev/vda rw highres=off console=ttyS0 ip=dhcp")
      (command_line out.config g).1 ∧
    (out.config.drive_interface = "virtio" ∧
      adj (some "-drive")
        (some ("file=" ++ out.config.image ++ ",if=" ++ out.config.drive_interface
          ++ ",format=raw,snapshot=on"))
        (command_line out.config g).1) := by
  obtain ⟨hng, machine, br, ir, sp1, sp2, hM, hB, hI, hp1, hp2, rfl⟩ := qemuInit_ok_inv hok
  rw [hu] at hB hng
  simp only [Bool.not_false, Bool.true_and] at hng
  rw [resolveBoot_kernel hefi] at hB
  simp only [Except.ok.injEq] at hB
  subst hB
  unfold command_line
  simp only [mkConfig, hu, hng, Bool.false_eq_true, if_false, List.cons_append,
    List.nil_append, List.append_assoc]
  refine ⟨?_, ?_, ?_, ?_⟩
  · exact adj_cons _ (adj_here _ _ _)
  · refine adj_cons _ (adj_cons _ (adj_cons _ (adj_cons _ (adj_cons _ (adj_cons _
      (adj_cons _ (adj_cons _ (adj_cons _ (adj_cons _ (adj_cons _ (adj_cons _
      (adj_cons _ (adj_cons _ (adj_cons _ (adj_cons _ (adj_cons _ ?_))))))))))))))))
    apply adj_append_left
    apply adj_append_left
    apply adj_append_left
    apply adj_append_left
    exact adj_here _ _ _
  · trivial
  · exact adj_cons _ (adj_cons _ (adj_cons _ (adj_here _ _ _)))

theorem command_line_direct_kernel_witness :
    adj (some "-kernel")
      (some (abspath (pjoin3 c7Args1.dir c7Out1.config.machine "bzImage-qemux86-64.bin")))
      (command_line c7Out1.config []).1 ∧
    adj (some "-append")
      (some "root=/dev/vda rw highres=off console=ttyS0 ip=dhcp")
      (command_line c7Out1.config []).1 ∧
    (c7Out1.config.drive_interface = "virtio" ∧
      adj (some "-drive")
        (some ("file=" ++ c7Out1.config.image ++ ",if=" ++ c7Out1.config.drive_interface
          ++ ",format=raw,snapshot=on"))
        (command_line c7Out1.config []).1) :=
  command_line_direct_kernel c7Args1 c7Env c7Out1 [] rfl rfl rfl

/-- A token whose string length is not that of `-kernel` is a different
token. -/
theorem kernel_token_ne {s : String}
    (h : ("-kernel" : String).length ≠ s.length) :
    ¬ ((some "-kernel" : Option String) = some s) := by
  intro hx
  apply h
  have hs : "-kernel" = s := by injection hx
  rw [hs]

def c3Args : Args :=
  { dry_run := false, overlay := none, uboot_enable := some "no",
    machine := some "qemux86-64", dir := "/b", bootloader := none, efi := true,
    imagename := "core-image", mac := some "ca:fe:00:00:00:03", mem := some "1G",
    kvm := some false, no_gui := true, gdb := false, pcap := none,
    secondary_network := false, host_forward := none }

def c3Out : InitOut :=
  match qemuInit c3Args c7Env with
  | .ok o => o
  | .error _ => default

/-- C3 is refuted: with the EFI flag set but U-Boot explicitly disabled,
construction succeeds (the firmware literal is even stored in `bios`), yet
`command_line()` keys on the U-Boot flag (line 161) and emits `-kernel`
(followed by the unset kernel, Python `None`) and no `-bios` token at all. -/
theorem command_line_efi_counterexample :
    qemuInit c3Args c7Env = .ok c3Out ∧
    c3Args.efi = true ∧
    c3Out.config.bios = some "OVMF.fd" ∧
    some "-kernel" ∈ (command_line c3Out.config []).1 ∧
    some "-bios" ∉ (command_line c3Out.config []).1 := by
  refine ⟨rfl, rfl, rfl, ?_, ?_⟩
  · decide
  · decide

/-- C3 (amended): with the EFI flag set and U-Boot not explicitly disabled,
every successful construction's launch command contains `-bios` immediately
followed by the firmware literal `OVMF.fd` and — provided neither the memory
size nor the overlay path is literally the string `-kernel` — contains no
`-kernel` token.  (With U-Boot disabled the command falls back to `-kernel`
even under EFI; see the counterexample.) -/
theorem command_line_efi_bios (args : Args) (env : Env) (out : InitOut) (g : Rng)
    (hefi : args.efi = true)
    (hu : computeEnableUBoot args.uboot_enable = true)
    (hok : qemuInit args env = .ok out)
    (hmemne : memOf args ≠ "-kernel")
    (hovne : args.overlay ≠ some "-kernel") :
    adj (some "-bios") (some "OVMF.fd") (command_line out.config g).1 ∧
    some "-kernel" ∉ (command_line out.config g).1 := by
  obtain ⟨hng, machine, br, ir, sp1, sp2, hM, hB, hI, hp1, hp2, rfl⟩ := qemuInit_ok_inv hok
  rw [resolveBoot_efi hefi] at hB
  simp only [Except.ok.injEq] at hB
  subst hB
  unfold command_line
  simp only [mkConfig, hu, if_true, List.cons_append, List.nil_append,
    List.append_assoc, List.append_nil]
  constructor
  · exact adj_cons _ (adj_here _ _ _)
  · intro hmem
    have lk : ("-kernel" : String).length = 7 := rfl
    simp only [List.mem_cons, List.mem_append, List.not_mem_nil, or_false] at hmem
    rcases hmem with h|h|h|h|h|h|h|h|h|h|h|h|h|h|h|h|h|h|h|h|h
    · exact absurd h (by decide)
    · exact absurd h (by decide)
    · exact absurd h (by decide)
    · -- drive segment
      by_cases hc : truthyO args.overlay = true
      · rw [if_pos hc] at h
        simp at h
      · rw [if_neg hc] at h
        simp only [List.mem_cons, List.not_mem_nil, or_false] at h
        rcases h with h | h
        · exact absurd h (by decide)
        · refine kernel_token_ne ?_ h
          simp only [String.length_append]
          have l1 : ("file=" : String).length = 5 := rfl
          have l2 : (",if=" : String).length = 4 := rfl
          have l3 : ("ide" : String).length = 3 := rfl
          have l4 : (",format=raw,snapshot=on" : String).length = 23 := rfl
          omega
    · exact absurd h (by decide)
    · -- serial token
      refine kernel_token_ne ?_ h
      simp only [String.length_append]
      have l1 : ("tcp:127.0.0.1:" : String).length = 14 := rfl
      have l2 : (",server,nowait" : String).length = 14 := rfl
      omega
    · exact absurd h (by decide)
    · -- memory size token
      have h2 : "-kernel" = memOf args := by injection h
      exact hmemne h2.symm
    · exact absurd h (by decide)
    · exact absurd h (by decide)
    · exact absurd h (by decide)
    · exact absurd h (by decide)
    · exact absurd h (by decide)
    · -- netuser token
      refine kernel_token_ne ?_ h
      have l1 : ("user,hostfwd=tcp:0.0.0.0:" : String).length = 25 := rfl
      have l2 : ("-:22,restrict=off" : String).length = 17 := rfl
      have l3 : (",hostfwd=tcp:0.0.0.0:2159-:2159" : String).length = 31 := rfl
      have l4 : (",hostfwd=" : String).length = 9 := rfl
      split_ifs <;> (simp only [String.length_append]; omega)
    · exact absurd h (by decide)
    · -- NIC token
      refine kernel_token_ne ?_ h
      simp only [String.length_append]
      have l1 : ("nic,macaddr=" : String).length = 12 := rfl
      omega
    · -- pcap segment
      by_cases hc : truthyO args.pcap = true
      · rw [if_pos hc] at h
        simp only [List.mem_cons, List.not_mem_nil, or_false] at h
        rcases h with h | h
        · exact absurd h (by decide)
        · refine kernel_token_ne ?_ h
          simp only [String.length_append]
          have l1 : ("dump,file=" : String).length = 10 := rfl
          omega
      · rw [if_neg hc] at h
        simp at h
    · -- secondary-network segment
      by_cases hc : args.secondary_network = true
      · rw [if_pos hc] at h
        simp only [List.mem_cons, List.not_mem_nil, or_false] at h
        rcases h with h | h | h | h
        · exact absurd h (by decide)
        · exact absurd h (by decide)
        · exact absurd h (by decide)
        · refine kernel_token_ne ?_ h
          simp only [String.length_append]
          have l1 : ("e1000,netdev=vlan1,mac=" : String).length = 23 := rfl
          omega
      · rw [if_neg hc] at h
        simp at h
    · -- GUI / headless segment
      by_cases hc : (!args.no_gui) = true
      · rw [if_pos hc] at h
        exact absurd h (by decide)
      · rw [if_neg hc] at h
        exact absurd h (by decide)
    · -- acceleration segment
      by_cases hc : kvmOf args env = true
      · rw [if_pos hc] at h
        exact absurd h (by decide)
      · rw [if_neg hc] at h
        exact absurd h (by decide)
    · -- trailing overlay path
      by_cases hc : truthyO args.overlay = true
      · rw [if_pos hc] at h
        simp only [List.mem_singleton] at h
        exact hovne h.symm
      · rw [if_neg hc] at h
        simp at h

def c3okArgs : Args :=
  { exArgs with efi := true, secondary_network := false }

def c3okOut : InitOut :=
  match qemuInit c3okArgs exEnv with
  | .ok o => o
  | .error _ => default

theorem command_line_efi_bios_witness :
    adj (some "-bios") (some "OVMF.fd") (command_line c3okOut.config []).1 ∧
    some "-kernel" ∉ (command_line c3okOut.config []).1 :=
  command_line_efi_bios c3okArgs exEnv c3okOut [] rfl rfl rfl (by decide) (by decide)

theorem pexists_append2 (fs : List String) (a b x : String) :
    pexists (fs ++ [a, b]) x = (pexists fs x || decide (x = a) || decide (x = b)) := by
  by_cases h1 : x = a <;> by_cases h2 : x = b <;> by_cases h3 : x ∈ fs <;>
    simp [pexists, h1, h2, h3]

/-- C5: with U-Boot enabled, an overlay path whose overlay file and sidecar
files do not yet exist, source ROM and base image present, and dry-run off,
the first construction copies exactly two files — ROM to
`<overlay>.u-boot.rom` and the base image to `<overlay>.img` — and a second
construction with the same options against the resulting filesystem performs
zero copies: the copy step is skip-if-destination-exists, idempotent across
invocations. -/
theorem qemuInit_overlay_copy_idempotent (args : Args) (env : Env)
    (m p up nup nip base : String) (sp1 sp2 : Nat)
    (hu : computeEnableUBoot args.uboot_enable = true)
    (hefi : args.efi = false)
    (hd : args.dry_run = false)
    (ho : args.overlay = some p)
    (hp : truthyO args.overlay = true)
    (hM : resolveMachine args env.dirs = .ok m)
    (hup : up = resolveUbootPath args m)
    (hnupd : nup = p ++ ".u-boot.rom")
    (hnipd : nip = p ++ ".img")
    (hbased : base = pjoin3 args.dir m
      (args.imagename ++ "-" ++ m ++ "." ++ lookupD env.extensions m "wic"))
    (hov : pexists env.fs p = false)
    (hrom : pexists env.fs up = true)
    (hnup : pexists env.fs nup = false)
    (him : pexists env.fs args.imagename = false)
    (hbase : pexists env.fs base = true)
    (hnip : pexists env.fs nip = false)
    (hx1 : args.imagename ≠ nup)
    (hx2 : args.imagename ≠ nip)
    (hp1 : p ≠ nup)
    (hp2 : p ≠ nip)
    (hx3 : nip ≠ nup)
    (hport1 : find_local_port env.portFree 8990 = some sp1)
    (hport2 : find_local_port env.portFree 2222 = some sp2) :
    ∃ out1, qemuInit args env = .ok out1 ∧
      out1.copies = [(up, nup), (base, nip)] ∧
      out1.fs = (env.fs ++ [nup]) ++ [nip] ∧
      ∃ out2, qemuInit args (envAfter env out1) = .ok out2 ∧ out2.copies = [] := by
  subst hup hnupd hnipd hbased
  have hp2t : truthyO (some p) = true := by
    rw [← ho]
    exact hp
  have hexts : extsOf args env = env.extensions := by
    unfold extsOf
    rw [hu]
    simp
  have hB1 : resolveBoot args env.fs (computeEnableUBoot args.uboot_enable) m =
      .ok ⟨some (p ++ ".u-boot.rom"), none,
        [(resolveUbootPath args m, p ++ ".u-boot.rom")],
        env.fs ++ [p ++ ".u-boot.rom"]⟩ := by
    unfold resolveBoot overlayRomStep sidecarCopy ubootExistsCheck
    simp [hefi, hu, ho, hp2t, hov, hrom, hnup, hd, pexists_append, pexists_append2,
      hx1, hx2, hp1, hp2, hx3]
  have hI1 : resolveImage args (extsOf args env) (env.fs ++ [p ++ ".u-boot.rom"]) m =
      .ok ⟨p ++ ".img",
        [(pjoin3 args.dir m
            (args.imagename ++ "-" ++ m ++ "." ++ lookupD env.extensions m "wic"),
          p ++ ".img")],
        (env.fs ++ [p ++ ".u-boot.rom"]) ++ [p ++ ".img"]⟩ := by
    unfold resolveImage overlayImgStep sidecarCopy osImageCheck
    rw [hexts]
    simp [ho, hp2t, hov, hd, pexists_append, pexists_append2,
      him, hbase, hnip, hx1, hx2, hp1, hp2, hx3]
  have hqe1 : qemuInit args env = .ok
      { config := mkConfig args env m
          ⟨some (p ++ ".u-boot.rom"), none,
            [(resolveUbootPath args m, p ++ ".u-boot.rom")],
            env.fs ++ [p ++ ".u-boot.rom"]⟩
          ⟨p ++ ".img",
            [(pjoin3 args.dir m
                (args.imagename ++ "-" ++ m ++ "." ++ lookupD env.extensions m "wic"),
              p ++ ".img")],
            (env.fs ++ [p ++ ".u-boot.rom"]) ++ [p ++ ".img"]⟩ sp1 sp2,
        copies := [(resolveUbootPath args m, p ++ ".u-boot.rom"),
          (pjoin3 args.dir m
              (args.imagename ++ "-" ++ m ++ "." ++ lookupD env.extensions m "wic"),
            p ++ ".img")],
        fs := (env.fs ++ [p ++ ".u-boot.rom"]) ++ [p ++ ".img"],
        extensions := extsOf args env,
        rng := (macOf args env).2 } := by
    unfold qemuInit
    rw [if_neg (by simp [hu]), hM]
    simp only [hB1]
    simp only [hI1]
    rw [hport1, hport2]
    rfl
  have hB2 : resolveBoot args ((env.fs ++ [p ++ ".u-boot.rom"]) ++ [p ++ ".img"])
      (computeEnableUBoot args.uboot_enable) m =
      .ok ⟨some (p ++ ".u-boot.rom"), none, [],
        (env.fs ++ [p ++ ".u-boot.rom"]) ++ [p ++ ".img"]⟩ := by
    unfold resolveBoot overlayRomStep sidecarCopy ubootExistsCheck
    simp [hefi, hu, ho, hp2t, hov, hrom, hnup, hd, pexists_append, pexists_append2,
      hx1, hx2, hp1, hp2, hx3]
  have hI2 : resolveImage args env.extensions
      ((env.fs ++ [p ++ ".u-boot.rom"]) ++ [p ++ ".img"]) m =
      .ok ⟨p ++ ".img", [],
        (env.fs ++ [p ++ ".u-boot.rom"]) ++ [p ++ ".img"]⟩ := by
    unfold resolveImage overlayImgStep sidecarCopy osImageCheck
    simp [ho, hp2t, hov, hd, pexists_append, pexists_append2,
      him, hbase, hnip, hx1, hx2, hp1, hp2, hx3]
  -- second construction, against any ambient state holding both sidecars
  have second : ∀ env2 : Env, env2.fs = (env.fs ++ [p ++ ".u-boot.rom"]) ++ [p ++ ".img"] →
      env2.dirs = env.dirs → env2.extensions = env.extensions →
      env2.portFree = env.portFree →
      ∃ out2, qemuInit args env2 = .ok out2 ∧ out2.copies = [] := by
    intro env2 hfs hdirs hext2 hpf
    have hext3 : extsOf args env2 = env2.extensions := by
      unfold extsOf
      rw [hu]
      simp
    refine ⟨{ config := mkConfig args env2 m
                ⟨some (p ++ ".u-boot.rom"), none, [], env2.fs⟩
                ⟨p ++ ".img", [], env2.fs⟩ sp1 sp2,
              copies := [],
              fs := env2.fs,
              extensions := extsOf args env2,
              rng := (macOf args env2).2 }, ?_, rfl⟩
    unfold qemuInit
    rw [if_neg (by simp [hu]), hdirs]
    simp only [hM]
    simp only [show resolveBoot args env2.fs (computeEnableUBoot args.uboot_enable) m =
        .ok ⟨some (p ++ ".u-boot.rom"), none, [], env2.fs⟩ from by rw [hfs]; exact hB2]
    simp only [show resolveImage args (extsOf args env2) env2.fs m =
        .ok ⟨p ++ ".img", [], env2.fs⟩ from by
      rw [hext3, hext2, hfs]
      exact hI2]
    rw [hpf]
    simp only [hport1, hport2]
    rfl
  refine ⟨_, hqe1, rfl, rfl, ?_⟩
  exact second _ rfl rfl hexts rfl

def c5Args : Args :=
  { dry_run := false, overlay := some "foo.img", uboot_enable := none,
    machine := some "qemux86-64", dir := "/b", bootloader := none, efi := false,
    imagename := "core-image", mac := some "ca:fe:00:00:00:05", mem := none,
    kvm := some false, no_gui := true, gdb := false, pcap := none,
    secondary_network := false, host_forward := none }

def c5Env : Env :=
  { fs := ["/b/qemux86-64/u-boot-qemux86-64.rom",
           "/b/qemux86-64/core-image-qemux86-64.ota-ext4"],
    dirs := [], extensions := EXTENSIONS, portFree := fun _ => true,
    kvmOk := false, rng := [] }

theorem qemuInit_overlay_copy_idempotent_witness :
    ∃ out1, qemuInit c5Args c5Env = .ok out1 ∧
      out1.copies = [("/b/qemux86-64/u-boot-qemux86-64.rom", "foo.img.u-boot.rom"),
        ("/b/qemux86-64/core-image-qemux86-64.ota-ext4", "foo.img.img")] ∧
      out1.fs = (c5Env.fs ++ ["foo.img.u-boot.rom"]) ++ ["foo.img.img"] ∧
      ∃ out2, qemuInit c5Args (envAfter c5Env out1) = .ok out2 ∧ out2.copies = [] :=
  qemuInit_overlay_copy_idempotent c5Args c5Env "qemux86-64" "foo.img"
    "/b/qemux86-64/u-boot-qemux86-64.rom" "foo.img.u-boot.rom" "foo.img.img"
    "/b/qemux86-64/core-image-qemux86-64.ota-ext4" 8990 2222
    rfl rfl rfl rfl rfl rfl rfl rfl rfl rfl (by decide) (by decide) (by decide)
    (by decide) (by decide) (by decide) (by decide) (by decide) (by decide)
    (by decide) (by decide) rfl rfl

/-- C6 is refuted: `command_line()` draws a fresh random MAC for the secondary
network device on every call (line 192), so its output depends on the ambient
random state and not on the resolved configuration alone — the same unchanged
configuration yields different token lists under two different random
states. -/
theorem command_line_not_pure_counterexample :
    qemuInit exArgs exEnv = .ok exOut ∧
    exOut.config.secondary_network = true ∧
    (command_line exOut.config [0, 0, 0, 0, 0, 0, 0, 0]).1 ≠
      (command_line exOut.config [1, 1, 1, 1, 1, 1, 1, 1]).1 := by
  refine ⟨rfl, rfl, ?_⟩
  decide

/-- C6 (amended): with the secondary-network flag unset, `command_line()` is a
pure function of the resolved configuration — its token list is independent of
the ambient random state, so repeated calls agree; with the flag set the
output additionally depends on the random draw for the secondary MAC. -/
theorem command_line_pure (c : QemuConfig) (g1 g2 : Rng)
    (hs : c.secondary_network = false) :
    (command_line c g1).1 = (command_line c g2).1 := by
  unfold command_line
  simp only [hs, Bool.false_eq_true, if_false]

theorem command_line_pure_witness :
    (command_line c7Out1.config [0]).1 = (command_line c7Out1.config [7, 7, 7]).1 :=
  command_line_pure c7Out1.config [0] [7, 7, 7] rfl
